import Mathlib

/-!
Shallow embedding of the field-refinement core of the factbook scraper
(`src/refiners/multi_value_splitter.py`, `src/refiners/year_extractor.py`,
`src/refiners/category_enricher.py`, `src/analyzers/field_discovery.py`,
`src/exporters/xlsx_exporter.py`), together with theorems settling the
frozen claims about it.

Conventions of the embedding:
* Python strings are Lean `String`s (lists of unicode scalar values); a JSON
  attribute that can be a string, JSON `null`, or missing from the dict is
  modelled by the three-valued `JStr`, and `dict.get(key, default)` by
  `JStr.get`.  A Python value of type `Optional[str]` is `Option String`
  (`none` = Python `None`).
* The two regexes of the source (`<br\s*/?>` with `re.IGNORECASE`, and the
  year patterns) are implemented directly as scanners over `List Char`,
  with `re.findall` / `re.split` / `re.search` semantics: non-overlapping
  matches found left to right, advancing one character on a failed match
  attempt.  The scanners recurse on an explicit fuel (instantiated with the
  length of the scanned list) so that they are structurally recursive and
  kernel-computable; fuel-irrelevance lemmas below show the fuel value is
  immaterial once it is at least the list length.
* `\s` and `str.strip()` use the Python whitespace set (`str.isspace`).
-/

/-- Code points Python treats as whitespace (`str.isspace`, and `\s` in a
`str` regex): ASCII whitespace, the C1 separators, NEL, NBSP and the
Unicode space/line/paragraph separators. -/
def pyWsCodes : List Nat :=
  [9, 10, 11, 12, 13, 28, 29, 30, 31, 32, 133, 160, 5760,
   8192, 8193, 8194, 8195, 8196, 8197, 8198, 8199, 8200, 8201, 8202,
   8232, 8233, 8239, 8287, 12288]

/-- Python whitespace test on a single character. -/
def isPyWs (c : Char) : Bool := pyWsCodes.contains c.toNat

/-- Python `str.strip()` on a character list: drop whitespace from both ends. -/
def pyStrip (l : List Char) : List Char :=
  ((l.dropWhile isPyWs).reverse.dropWhile isPyWs).reverse

/-- A JSON dictionary entry whose value is expected to be a string: the key
can be missing from the dict, present with JSON `null`, or present with a
string value. -/
inductive JStr where
  | missing
  | null
  | str (s : String)
deriving DecidableEq, Repr

/-- Python `dict.get(key, default)` for a `JStr` attribute, where the default
is itself `None` or a string: a missing key yields the default, a `null`
value yields Python `None`, a string value yields itself. -/
def JStr.get (j : JStr) (default : Option String) : Option String :=
  match j with
  | .missing => default
  | .null => none
  | .str s => some s

/-- Python truthiness of an `Optional[str]`: `None` and the empty string are
falsy. -/
def truthyStr : Option String → Bool
  | none => false
  | some s => !s.isEmpty

/-! ### Generic left-to-right regex scanners

A matcher `m : List Char → Option (α × List Char)` attempts a match at the
head of the list; on success it returns the captured value and the
remainder after the matched text.  The scanners realise the semantics of
`re.findall` (count), `re.search` (first capture) and `re.split`:
non-overlapping matches, scanning left to right, advancing by one character
after a failed attempt. -/

/-- Count of non-overlapping matches, as `len(pattern.findall(text))`. -/
def scanCount {α : Type} (m : List Char → Option (α × List Char)) :
    Nat → List Char → Nat
  | 0, _ => 0
  | _ + 1, [] => 0
  | fuel + 1, c :: cs =>
    match m (c :: cs) with
    | some (_, rest) => scanCount m fuel rest + 1
    | none => scanCount m fuel cs

/-- Capture of the first match, as `pattern.search(text)` plus `group(1)`. -/
def scanFirst {α : Type} (m : List Char → Option (α × List Char)) :
    Nat → List Char → Option α
  | 0, _ => none
  | _ + 1, [] => none
  | fuel + 1, c :: cs =>
    match m (c :: cs) with
    | some (a, _) => some a
    | none => scanFirst m fuel cs

/-- Fragments between non-overlapping matches, as `pattern.split(text)` for a
pattern without capturing groups. -/
def scanSplit {α : Type} (m : List Char → Option (α × List Char)) :
    Nat → List Char → List (List Char)
  | 0, l => [l]
  | _ + 1, [] => [[]]
  | fuel + 1, c :: cs =>
    match m (c :: cs) with
    | some (_, rest) => [] :: scanSplit m fuel rest
    | none =>
      match scanSplit m fuel cs with
      | [] => [[c]]
      | f :: fs => (c :: f) :: fs

/-- A matcher is shrinking when the remainder it returns is strictly shorter
than its input; every literal regex matcher below consumes at least one
character. -/
def Shrinking {α : Type} (m : List Char → Option (α × List Char)) : Prop :=
  ∀ l a r, m l = some (a, r) → r.length < l.length

/-! ### The break-marker regex `<br\s*/?>` (`re.IGNORECASE`)

`BR_TAG_PATTERN = re.compile(r'<br\s*/?>', re.IGNORECASE)` from
`src/refiners/multi_value_splitter.py`.  A match at a position is `<`,
then `b`/`B`, then `r`/`R`, then a maximal run of whitespace, then either
`/>` or `>` (after the maximal whitespace run no backtracking can succeed,
since `\s` matches neither `/` nor `>`). -/

/-- Attempt to match `BR_TAG_PATTERN` at the head of the list; on success
return the remainder of the list after the match. -/
def matchBrTag (l : List Char) : Option (Unit × List Char) :=
  match l with
  | '<' :: b :: r :: rest =>
    if (b = 'b' ∨ b = 'B') ∧ (r = 'r' ∨ r = 'R') then
      match rest.dropWhile isPyWs with
      | '/' :: '>' :: tl => some ((), tl)
      | '>' :: tl => some ((), tl)
      | _ => none
    else none
  | _ => none

/-- Number of `<br>`-tag matches in a character list,
`len(BR_TAG_PATTERN.findall(text))`. -/
def countBrTags (l : List Char) : Nat := scanCount matchBrTag l.length l

/-- Fragments of a character list between `<br>`-tag matches,
`BR_TAG_PATTERN.split(text)`. -/
def splitBr (l : List Char) : List (List Char) := scanSplit matchBrTag l.length l

/-- Embedding of `is_multi_valued` (`multi_value_splitter.py` lines 30–55):
false for `None`, the empty string or a non-string; otherwise true iff the
string contains at least one `<br>`-tag match. -/
def is_multi_valued (data : Option String) : Bool :=
  match data with
  | none => false
  | some s => if s.isEmpty then false else decide (countBrTags s.data ≥ 1)

/-- Embedding of `split_values` (`multi_value_splitter.py` lines 58–94):
split on `<br>`-tag matches, strip each fragment, and drop fragments that
are empty after stripping.  `None` and the empty string yield `[]`. -/
def split_values (data : Option String) : List String :=
  match data with
  | none => []
  | some s =>
    if s.isEmpty then []
    else
      ((splitBr s.data).map pyStrip).filterMap
        (fun p => if p.isEmpty then none else some (String.mk p))

/-! ### Field refinement (`multi_value_splitter.py` lines 97–156, 197–210) -/

/-- A raw field object as it arrives from a country JSON file.  Each
attribute that the source reads through `field.get(...)` is a `JStr`
(missing / null / string); `subfields` and `has_ranking` are modelled with
their parsed JSON values directly, conflating a missing key with the
default the source supplies for it (`[]` and `False`), which the source
never distinguishes. -/
structure RawField where
  name : JStr := .missing
  database_id : JStr := .missing
  category : JStr := .missing
  data : JStr := .missing
  subfields : List String := []
  has_ranking : Bool := false
deriving DecidableEq, Repr

/-- One entry of the uniform values array built by `refine_field`:
`{"value": value, "order": i}`. -/
structure NormValue where
  value : String
  order : Nat
deriving DecidableEq, Repr

/-- The refined field structure built by `refine_field` (its keys exactly:
`name`, `database_id`, `category`, `subfields`, `has_ranking`,
`is_multi_valued`, `values` — the source sets no `structure_type` key
here). -/
structure RefinedField where
  name : Option String
  database_id : Option String
  category : Option String
  subfields : List String
  has_ranking : Bool
  is_multi_valued : Bool
  values : List NormValue
deriving DecidableEq, Repr

/-- Embedding of `refine_field` (`multi_value_splitter.py` lines 97–156):
detect multi-valuedness of `field.get('data', '')`, split into the values
list (a single-element or empty list in the single-valued case), number the
values, and copy the metadata attributes through with their `get` defaults. -/
def refine_field (field : RawField) : RefinedField :=
  let data_content := field.data.get (some "")
  let multi_valued := is_multi_valued data_content
  let values_list :=
    if multi_valued then split_values data_content
    else
      match data_content with
      | some s => if s.isEmpty then [] else [s]
      | none => []
  { name := field.name.get (some "")
    database_id := field.database_id.get (some "")
    category := field.category.get (some "")
    subfields := field.subfields
    has_ranking := field.has_ranking
    is_multi_valued := multi_valued
    values := values_list.enum.map (fun p => { value := p.2, order := p.1 }) }

/-- The per-field `is_multi_valued` consistency check of
`validate_refined_structure` (`multi_value_splitter.py` lines 626–636): a
multi-valued field must have at least 2 values and a single-valued field
exactly 1. -/
def multi_valued_consistent (f : RefinedField) : Bool :=
  if f.is_multi_valued then decide (f.values.length ≥ 2)
  else decide (f.values.length = 1)

/-- An entry of the raw `fields` list of a country file: either a JSON
object (modelled by `RawField`) or some other JSON value (a non-dict), the
only kind of entry on which `refine_field` raises (AttributeError from
`field.get` on a non-dict). -/
inductive RawEntry where
  | obj (f : RawField)
  | malformed
deriving DecidableEq, Repr

/-- Outcome of one iteration of the per-field `try/except` body of
`refine_country` on one entry.  A dict field refines without raising.  On
a non-dict field `refine_field` raises AttributeError, and the `except`
handler's own log line evaluates `field.get('name', 'unknown')` on the
same non-dict field, raising AttributeError again before the handler's
`continue` is reached — so the iteration ends in an exception that escapes
the handler. -/
def refineEntry : RawEntry → Except String RefinedField
  | .obj f => Except.ok (refine_field f)
  | .malformed => Except.error "AttributeError"

/-- Embedding of the per-field loop of `refine_country`
(`multi_value_splitter.py` lines 197–210): entries are processed in order;
a dict field is refined and appended, while the first non-dict entry makes
its loop iteration raise out of its own `except` handler, aborting the
loop — and with it the record's refinement — before any later sibling is
processed. -/
def refine_country_fields : List RawEntry → Except String (List RefinedField)
  | [] => Except.ok []
  | e :: es =>
    match refineEntry e with
    | Except.ok r =>
      match refine_country_fields es with
      | Except.ok rs => Except.ok (r :: rs)
      | Except.error msg => Except.error msg
    | Except.error msg => Except.error msg

/-! ### Year extraction (`year_extractor.py`)

`YEAR_PATTERNS` holds two compiled patterns, tried in order: first the
parenthesised year with an `est.` marker, then the bare parenthesised year.
Both capture the 4-digit year.  `\d` is interpreted as a decimal-digit
character (the scraped source text is ASCII). -/

/-- Consume an expected literal character sequence from the head of the
list, returning the remainder on success. -/
def expectChars : List Char → List Char → Option (List Char)
  | [], l => some l
  | c :: cs, x :: xs => if x = c then expectChars cs xs else none
  | _ :: _, [] => none

/-- Consume exactly four decimal digits from the head of the list. -/
def takeDigits4 : List Char → Option (List Char × List Char)
  | a :: b :: c :: d :: rest =>
    if a.isDigit && b.isDigit && c.isDigit && d.isDigit then
      some ([a, b, c, d], rest)
    else none
  | _ => none

/-- Attempt to match the first year pattern `\((\d{4}) est\.\)` at the head
of the list, capturing the 4-digit year. -/
def matchEstAt (l : List Char) : Option (String × List Char) := do
  let r1 ← expectChars ['('] l
  let (ds, r2) ← takeDigits4 r1
  let r3 ← expectChars [' ', 'e', 's', 't', '.', ')'] r2
  pure (String.mk ds, r3)

/-- Attempt to match the second year pattern `\((\d{4})\)` at the head of
the list, capturing the 4-digit year. -/
def matchBareAt (l : List Char) : Option (String × List Char) := do
  let r1 ← expectChars ['('] l
  let (ds, r2) ← takeDigits4 r1
  let r3 ← expectChars [')'] r2
  pure (String.mk ds, r3)

/-- Matches of `\((\d{4}) est\.\)` in a character list,
`len(YEAR_PATTERNS[0].findall(text))`. -/
def countEst (l : List Char) : Nat := scanCount matchEstAt l.length l

/-- Matches of `\((\d{4})\)` in a character list,
`len(YEAR_PATTERNS[1].findall(text))`. -/
def countBare (l : List Char) : Nat := scanCount matchBareAt l.length l

/-- First capture of `\((\d{4}) est\.\)`, `YEAR_PATTERNS[0].search(text)`. -/
def searchEst (l : List Char) : Option String := scanFirst matchEstAt l.length l

/-- First capture of `\((\d{4})\)`, `YEAR_PATTERNS[1].search(text)`. -/
def searchBare (l : List Char) : Option String := scanFirst matchBareAt l.length l

/-- Total number of matches of the two year patterns, as counted by the
loop over `YEAR_PATTERNS` in `should_extract_year`. -/
def totalYearsFound (s : String) : Nat := countEst s.data + countBare s.data

/-- Embedding of `should_extract_year` (`year_extractor.py` lines 28–65)
with its two configured maxima as explicit arguments (the source defaults
are `max_length = MAX_VALUE_LENGTH = 120` and
`max_years = MAX_YEARS_IN_VALUE = 1`). -/
def should_extract_year (value : Option String) (max_length max_years : Nat) :
    Bool :=
  match value with
  | none => false
  | some s =>
    if s.isEmpty then false
    else if totalYearsFound s > max_years then false
    else if totalYearsFound s = 1 ∧ s.length > max_length then false
    else true

/-- Embedding of `extract_year` (`year_extractor.py` lines 93–122): try the
two year patterns in order, returning the first captured group. -/
def extract_year (value : Option String) : Option String :=
  match value with
  | none => none
  | some s =>
    if s.isEmpty then none
    else
      match searchEst s.data with
      | some y => some y
      | none => searchBare s.data

/-- Embedding of `extract_year_smart` (`year_extractor.py` lines 68–90):
apply the count and length gates of `should_extract_year` (at their default
configuration), then fall through to `extract_year`. -/
def extract_year_smart (value : Option String) : Option String :=
  if should_extract_year value 120 1 then extract_year value else none

/-! ### Category enrichment (`category_enricher.py` lines 48–101)

The category mapping `category_mapping.json` is a flat string-keyed dict,
modelled as an association list with first-match lookup. -/

/-- Python `key in dict` / `dict[key]` on the category mapping. -/
def dictLookup (mapping : List (String × String)) (k : String) : Option String :=
  (mapping.find? (fun p => p.1 == k)).map Prod.snd

/-- Embedding of the per-field body of the enrichment loop in
`enrich_with_categories` (`category_enricher.py` lines 65–75):
`enriched_field = field.copy()`, then `category` is set to
`category_mapping[database_id]` when `database_id` is truthy and present in
the mapping, and to `None` otherwise. -/
def enrich_field (mapping : List (String × String)) (field : RawField) :
    RawField :=
  let database_id := field.database_id.get none
  let matched :=
    if truthyStr database_id then database_id.bind (dictLookup mapping)
    else none
  match matched with
  | some cat => { field with category := .str cat }
  | none => { field with category := .null }

/-- Embedding of the fields transformation of `enrich_with_categories`: the
loop body applied to each field of the record in order. -/
def enrich_with_categories (mapping : List (String × String))
    (fields : List RawField) : List RawField :=
  fields.map (enrich_field mapping)

/-! ### Per-entry year-extraction variants (`year_extractor.py` lines 125–192)

A value object is a JSON dict with a `value` key, possibly an existing
`year` key, and arbitrary further keys (for instance `order`), which
`dict.copy()` carries over untouched; the extra keys are modelled
opaquely as an association list. -/

/-- A `simple`-structure value object as consumed by
`extract_years_from_values`. -/
structure ValueObj where
  value : JStr := .missing
  year : Option String := none
  rest : List (String × String) := []
deriving DecidableEq, Repr

/-- A key-value pair object as consumed by
`extract_years_from_key_value_pairs`. -/
structure KVObj where
  key : JStr := .missing
  value : JStr := .missing
  year : Option String := none
  rest : List (String × String) := []
deriving DecidableEq, Repr

/-- Embedding of `extract_years_from_values` (`year_extractor.py` lines
125–164): copy each value object and set its `year` key to the smart
extraction of its `value` field whenever that extraction is truthy. -/
def extract_years_from_values (values_list : List ValueObj) : List ValueObj :=
  values_list.map (fun value_obj =>
    let year := extract_year_smart (value_obj.value.get (some ""))
    if truthyStr year then { value_obj with year := year } else value_obj)

/-- Embedding of `extract_years_from_key_value_pairs` (`year_extractor.py`
lines 167–192): identical transformation over key-value pair objects. -/
def extract_years_from_key_value_pairs (values_list : List KVObj) :
    List KVObj :=
  values_list.map (fun kv_obj =>
    let year := extract_year_smart (kv_obj.value.get (some ""))
    if truthyStr year then { kv_obj with year := year } else kv_obj)

/-! ### Field registry and coverage (`field_discovery.py` lines 169–255)

`build_field_registry` walks every field of every record; a field whose
`get('name')` is falsy is skipped, otherwise the record's slug is appended
to the field's `countries_with_field` list — once per occurrence, so a
record holding the same field name twice contributes twice.
`calculate_coverage` then computes
`round((len(countries_with_field) / total_countries) * 100, 1)`
(0 when `total_countries == 0`).  Python's `round` is modelled on `ℚ` as
round-half-to-even at one decimal. -/

/-- The truthy field name under which `build_field_registry` registers a
field, `none` when the field is skipped. -/
def field_name_of (f : RawField) : Option String :=
  match f.name.get none with
  | some s => if s.isEmpty then none else some s
  | none => none

/-- Length of `countries_with_field` for a field name: one entry per
occurrence of the name in any record, across all records. -/
def countries_with_field_len (n : String) (records : List (List RawField)) :
    Nat :=
  (records.map
    (fun fields => (fields.filter (fun f => field_name_of f == some n)).length)).sum

/-- Number of records that contain at least one field with the given
truthy name (what the specification calls the count of records containing
the field at all). -/
def records_containing (n : String) (records : List (List RawField)) : Nat :=
  (records.filter (fun fields => fields.any (fun f => field_name_of f == some n))).length

/-- Round-half-to-even to an integer, the tie behaviour of Python `round`. -/
def round_half_even (q : ℚ) : ℤ :=
  if q - ⌊q⌋ < 1 / 2 then ⌊q⌋
  else if q - ⌊q⌋ > 1 / 2 then ⌊q⌋ + 1
  else if ⌊q⌋ % 2 = 0 then ⌊q⌋ else ⌊q⌋ + 1

/-- Python `round(q, 1)` on an ideal (rational) value. -/
def pyRound1 (q : ℚ) : ℚ := (round_half_even (q * 10) : ℚ) / 10

/-- Embedding of the coverage percentage `calculate_coverage` stores for a
registered field name (`field_discovery.py` lines 234–252). -/
def coverage_percentage (n : String) (records : List (List RawField))
    (total_countries : Nat) : ℚ :=
  pyRound1
    (if total_countries > 0 then
      ((countries_with_field_len n records : ℚ) / total_countries) * 100
    else 0)

/-! ### Row flattening (`xlsx_exporter.py` lines 102–182) -/

/-- A value object of a refined field as read by `flatten_to_rows`: the
`key`, `value` and `order` entries are read with `get` defaults, and
`sub_values` (used by the `key_sub_values` branch, here in its bare-string
form) defaults to `[]`. -/
structure ExportValueObj where
  key : JStr := .missing
  value : JStr := .missing
  order : Option Nat := none
  sub_values : List String := []
deriving DecidableEq, Repr

/-- A refined field as read by `flatten_to_rows`: `name`, `database_id` and
`structure_type` are accessed by subscription (required keys), `category`
and `has_ranking` with `get` defaults. -/
structure ExportField where
  name : String
  database_id : Option String := none
  category : JStr := .missing
  structure_type : String
  has_ranking : Bool := false
  values : List ExportValueObj := []
deriving DecidableEq, Repr

/-- One flat output row of `flatten_to_rows`. -/
structure Row where
  country : String
  country_slug : String
  field_name : String
  database_id : Option String
  category : Option String
  structure_type : String
  key : Option String
  value : Option String
  order : Nat
  has_ranking : Bool
deriving DecidableEq, Repr

/-- Embedding of the per-field body of `flatten_to_rows` (`xlsx_exporter.py`
lines 119–179), branching on `structure_type`: `simple` emits one row per
value with the `"-"` sentinel key, `key_value_pairs` one row per pair with
the pair's key, `key_sub_values` one row per sub-value with the outer key
and the sub-value's position as order; any other structure type emits
nothing. -/
def flatten_field (country_name country_slug : String) (field : ExportField) :
    List Row :=
  if field.structure_type = "simple" then
    field.values.map (fun value_obj =>
      { country := country_name, country_slug := country_slug,
        field_name := field.name, database_id := field.database_id,
        category := field.category.get (some "Unknown"),
        structure_type := field.structure_type,
        key := some "-",
        value := value_obj.value.get (some ""),
        order := value_obj.order.getD 0,
        has_ranking := field.has_ranking })
  else if field.structure_type = "key_value_pairs" then
    field.values.map (fun value_obj =>
      { country := country_name, country_slug := country_slug,
        field_name := field.name, database_id := field.database_id,
        category := field.category.get (some "Unknown"),
        structure_type := field.structure_type,
        key := value_obj.key.get (some ""),
        value := value_obj.value.get (some ""),
        order := value_obj.order.getD 0,
        has_ranking := field.has_ranking })
  else if field.structure_type = "key_sub_values" then
    (field.values.map (fun value_obj =>
      value_obj.sub_values.enum.map (fun p =>
        { country := country_name, country_slug := country_slug,
          field_name := field.name, database_id := field.database_id,
          category := field.category.get (some "Unknown"),
          structure_type := field.structure_type,
          key := value_obj.key.get (some ""),
          value := some p.2,
          order := p.1,
          has_ranking := field.has_ranking }))).flatten
  else []

/-- Embedding of `flatten_to_rows` over the fields of one country record:
rows of the fields in their original sequence. -/
def flatten_to_rows (country_name country_slug : String)
    (fields : List ExportField) : List Row :=
  (fields.map (flatten_field country_name country_slug)).flatten

/-- The export value object a `NormValue` produced by `refine_field`
corresponds to: both the `value` and `order` keys present. -/
def NormValue.toExportObj (v : NormValue) : ExportValueObj :=
  { value := .str v.value, order := some v.order }

theorem scanCount_nil {α : Type} (m : List Char → Option (α × List Char))
    (fuel : Nat) : scanCount m fuel [] = 0 := by
  cases fuel <;> rfl

theorem scanFirst_nil {α : Type} (m : List Char → Option (α × List Char))
    (fuel : Nat) : scanFirst m fuel [] = none := by
  cases fuel <;> rfl

theorem scanSplit_nil {α : Type} (m : List Char → Option (α × List Char))
    (fuel : Nat) : scanSplit m fuel [] = [[]] := by
  cases fuel <;> rfl

theorem scanCount_fuel {α : Type} {m : List Char → Option (α × List Char)}
    (hm : Shrinking m) :
    ∀ (f₁ : Nat) {f₂ : Nat} {l : List Char}, l.length ≤ f₁ → l.length ≤ f₂ →
      scanCount m f₁ l = scanCount m f₂ l := by
  intro f₁
  induction f₁ with
  | zero =>
    intro f₂ l h₁ _
    have : l = [] := List.length_eq_zero.mp (Nat.le_zero.mp h₁)
    subst this
    rw [scanCount_nil, scanCount_nil]
  | succ f ih =>
    intro f₂ l h₁ h₂
    match l with
    | [] => rw [scanCount_nil, scanCount_nil]
    | c :: cs =>
      match f₂, h₂ with
      | f₂ + 1, h₂ =>
        show scanCount m (f + 1) (c :: cs) = scanCount m (f₂ + 1) (c :: cs)
        simp only [scanCount]
        cases hmc : m (c :: cs) with
        | some ar =>
          obtain ⟨a, rest⟩ := ar
          have hlt := hm _ _ _ hmc
          simp only [List.length_cons] at h₁ h₂ hlt
          show scanCount m f rest + 1 = scanCount m f₂ rest + 1
          rw [@ih f₂ rest (by omega) (by omega)]
        | none =>
          simp only [List.length_cons] at h₁ h₂
          show scanCount m f cs = scanCount m f₂ cs
          rw [@ih f₂ cs (by omega) (by omega)]

theorem scanFirst_fuel {α : Type} {m : List Char → Option (α × List Char)} :
    ∀ (f₁ : Nat) {f₂ : Nat} {l : List Char}, l.length ≤ f₁ → l.length ≤ f₂ →
      scanFirst m f₁ l = scanFirst m f₂ l := by
  intro f₁
  induction f₁ with
  | zero =>
    intro f₂ l h₁ _
    have : l = [] := List.length_eq_zero.mp (Nat.le_zero.mp h₁)
    subst this
    rw [scanFirst_nil, scanFirst_nil]
  | succ f ih =>
    intro f₂ l h₁ h₂
    match l with
    | [] => rw [scanFirst_nil, scanFirst_nil]
    | c :: cs =>
      match f₂, h₂ with
      | f₂ + 1, h₂ =>
        show scanFirst m (f + 1) (c :: cs) = scanFirst m (f₂ + 1) (c :: cs)
        simp only [scanFirst]
        cases hmc : m (c :: cs) with
        | some ar => rfl
        | none =>
          simp only [List.length_cons] at h₁ h₂
          show scanFirst m f cs = scanFirst m f₂ cs
          rw [@ih f₂ cs (by omega) (by omega)]

theorem scanSplit_fuel {α : Type} {m : List Char → Option (α × List Char)}
    (hm : Shrinking m) :
    ∀ (f₁ : Nat) {f₂ : Nat} {l : List Char}, l.length ≤ f₁ → l.length ≤ f₂ →
      scanSplit m f₁ l = scanSplit m f₂ l := by
  intro f₁
  induction f₁ with
  | zero =>
    intro f₂ l h₁ _
    have : l = [] := List.length_eq_zero.mp (Nat.le_zero.mp h₁)
    subst this
    rw [scanSplit_nil, scanSplit_nil]
  | succ f ih =>
    intro f₂ l h₁ h₂
    match l with
    | [] => rw [scanSplit_nil, scanSplit_nil]
    | c :: cs =>
      match f₂, h₂ with
      | f₂ + 1, h₂ =>
        show scanSplit m (f + 1) (c :: cs) = scanSplit m (f₂ + 1) (c :: cs)
        simp only [scanSplit]
        cases hmc : m (c :: cs) with
        | some ar =>
          obtain ⟨a, rest⟩ := ar
          have hlt := hm _ _ _ hmc
          simp only [List.length_cons] at h₁ h₂ hlt
          show [] :: scanSplit m f rest = [] :: scanSplit m f₂ rest
          rw [@ih f₂ rest (by omega) (by omega)]
        | none =>
          simp only [List.length_cons] at h₁ h₂
          show (match scanSplit m f cs with
                | [] => [[c]]
                | f :: fs => (c :: f) :: fs) =
              (match scanSplit m f₂ cs with
                | [] => [[c]]
                | f :: fs => (c :: f) :: fs)
          rw [@ih f₂ cs (by omega) (by omega)]

theorem matchBrTag_shrinking : Shrinking matchBrTag := by
  intro l a tl h
  unfold matchBrTag at h
  split at h
  case _ b r rest =>
    split at h
    · have hd : (rest.dropWhile isPyWs).length ≤ rest.length :=
        (List.dropWhile_sublist isPyWs).length_le
      split at h
      case _ tl' heq =>
        cases h
        have : (rest.dropWhile isPyWs).length = tl.length + 2 := by
          rw [heq]; simp
        simp only [List.length_cons]
        omega
      case _ tl' heq =>
        cases h
        have : (rest.dropWhile isPyWs).length = tl.length + 1 := by
          rw [heq]; simp
        simp only [List.length_cons]
        omega
      case _ => exact absurd h (by simp)
    · exact absurd h (by simp)
  case _ => exact absurd h (by simp)

theorem countBrTags_cons (c : Char) (cs : List Char) :
    countBrTags (c :: cs) =
      match matchBrTag (c :: cs) with
      | some (_, rest) => countBrTags rest + 1
      | none => countBrTags cs := by
  show scanCount matchBrTag (cs.length + 1) (c :: cs) = _
  simp only [scanCount]
  cases hmc : matchBrTag (c :: cs) with
  | some ar =>
    obtain ⟨a, rest⟩ := ar
    have hlt := matchBrTag_shrinking _ _ _ hmc
    simp only [List.length_cons] at hlt
    show scanCount matchBrTag cs.length rest + 1 = countBrTags rest + 1
    rw [@scanCount_fuel Unit matchBrTag matchBrTag_shrinking cs.length rest.length
        rest (by omega) (by omega)]
    rfl
  | none => rfl

theorem splitBr_cons (c : Char) (cs : List Char) :
    splitBr (c :: cs) =
      match matchBrTag (c :: cs) with
      | some (_, rest) => [] :: splitBr rest
      | none =>
        match splitBr cs with
        | [] => [[c]]
        | f :: fs => (c :: f) :: fs := by
  show scanSplit matchBrTag (cs.length + 1) (c :: cs) = _
  simp only [scanSplit]
  cases hmc : matchBrTag (c :: cs) with
  | some ar =>
    obtain ⟨a, rest⟩ := ar
    have hlt := matchBrTag_shrinking _ _ _ hmc
    simp only [List.length_cons] at hlt
    show [] :: scanSplit matchBrTag cs.length rest = [] :: splitBr rest
    rw [@scanSplit_fuel Unit matchBrTag matchBrTag_shrinking cs.length rest.length
        rest (by omega) (by omega)]
    rfl
  | none =>
    rfl

theorem expectChars_length : ∀ {cs l r : List Char},
    expectChars cs l = some r → r.length + cs.length = l.length := by
  intro cs
  induction cs with
  | nil => intro l r h; cases h; simp
  | cons c cs ih =>
    intro l r h
    match l with
    | [] => exact absurd h (by simp [expectChars])
    | x :: xs =>
      rw [expectChars] at h
      split at h
      · have := ih h
        simp only [List.length_cons]
        omega
      · exact absurd h (by simp)

theorem takeDigits4_length {l : List Char} {ds r : List Char}
    (h : takeDigits4 l = some (ds, r)) : r.length + 4 = l.length := by
  match l with
  | [] | [_] | [_, _] | [_, _, _] => exact absurd h (by simp [takeDigits4])
  | a :: b :: c :: d :: rest =>
    rw [takeDigits4] at h
    split at h
    · cases h; simp
    · exact absurd h (by simp)

theorem takeDigits4_digits {l : List Char} {ds r : List Char}
    (h : takeDigits4 l = some (ds, r)) :
    ds.length = 4 ∧ ds.all Char.isDigit := by
  match l with
  | [] | [_] | [_, _] | [_, _, _] => exact absurd h (by simp [takeDigits4])
  | a :: b :: c :: d :: rest =>
    rw [takeDigits4] at h
    split at h
    case _ hcond =>
      cases h
      simp only [Bool.and_eq_true] at hcond
      obtain ⟨⟨⟨ha, hb⟩, hc⟩, hd⟩ := hcond
      exact ⟨rfl, by simp [List.all_cons, ha, hb, hc, hd]⟩
    · exact absurd h (by simp)

theorem matchEstAt_some {l : List Char} {y : String} {r : List Char}
    (h : matchEstAt l = some (y, r)) :
    r.length + 11 = l.length ∧ y.data.length = 4 ∧ y.data.all Char.isDigit := by
  unfold matchEstAt at h
  simp only [Option.bind_eq_bind, Option.bind_eq_some] at h
  obtain ⟨r1, h1, ⟨ds, r2⟩, h2, r3, h3, h4⟩ := h
  cases h4
  have e1 := expectChars_length h1
  have e2 := takeDigits4_length h2
  have e3 := expectChars_length h3
  have e4 := takeDigits4_digits h2
  simp only [List.length_cons, List.length_nil] at e1 e3
  exact ⟨by omega, e4.1, e4.2⟩

theorem matchBareAt_some {l : List Char} {y : String} {r : List Char}
    (h : matchBareAt l = some (y, r)) :
    r.length + 6 = l.length ∧ y.data.length = 4 ∧ y.data.all Char.isDigit := by
  unfold matchBareAt at h
  simp only [Option.bind_eq_bind, Option.bind_eq_some] at h
  obtain ⟨r1, h1, ⟨ds, r2⟩, h2, r3, h3, h4⟩ := h
  cases h4
  have e1 := expectChars_length h1
  have e2 := takeDigits4_length h2
  have e3 := expectChars_length h3
  have e4 := takeDigits4_digits h2
  simp only [List.length_cons, List.length_nil] at e1 e3
  exact ⟨by omega, e4.1, e4.2⟩

theorem matchEstAt_shrinking : Shrinking matchEstAt := by
  intro l a r h
  have := (matchEstAt_some h).1
  omega

theorem matchBareAt_shrinking : Shrinking matchBareAt := by
  intro l a r h
  have := (matchBareAt_some h).1
  omega

/-! ### Supporting lemmas -/

theorem splitBr_of_countBrTags_zero :
    ∀ (l : List Char), countBrTags l = 0 → splitBr l = [l] := by
  intro l
  induction l with
  | nil => intro _; rfl
  | cons c cs ih =>
    intro h
    rw [countBrTags_cons] at h
    rw [splitBr_cons]
    cases hm : matchBrTag (c :: cs) with
    | some ar =>
      rw [hm] at h
      obtain ⟨a, rest⟩ := ar
      simp at h
    | none =>
      rw [hm] at h
      rw [ih h]

/-! ### Claim C1 -/

/-- Claim C1 (code_bug): the claim states that every field refined by
`refine_field` satisfies the `NormalizedField` invariant — `is_multi_valued`
true implies at least 2 values.  The code violates this: on a raw field
whose data is `"A<br>"` the single `<br>` tag makes `is_multi_valued` true,
yet splitting produces a single value (`"A"`; the trailing empty fragment
is dropped), and the code's own `validate_refined_structure` check
(`multi_valued_consistent`) rejects the resulting field.  This theorem
evaluates the code at the failing input. -/
theorem refine_field_violates_own_multi_invariant :
    (refine_field { data := JStr.str "A<br>" }).is_multi_valued = true ∧
    (refine_field { data := JStr.str "A<br>" }).values.length = 1 ∧
    multi_valued_consistent (refine_field { data := JStr.str "A<br>" }) = false := by
  decide

/-! ### Claim C3 -/

/-- Claim C3 (counterexample): the claim states `refine_field` initialises
`category` to null; in fact the code copies the input's `category` through
(`field.get('category', '')`), so a raw field carrying category
`"Economy"` refines to a field whose category is `"Economy"`, not null.
(The output dict also has no `structure_type` key at all, contrary to the
claim's `structure_type = "simple"`; the embedding's `RefinedField`
mirrors the source's exact key set.) -/
theorem refine_field_category_not_null :
    (refine_field { category := JStr.str "Economy", data := JStr.str "x" }).category
      = some "Economy" ∧
    (some "Economy" : Option String) ≠ none ∧
    (refine_field { data := JStr.str "x" }).category = some "" ∧
    (some "" : Option String) ≠ none := by
  decide

/-- Claim C3 (amended): `refine_field` copies `name`, `database_id`,
`subfields` and `has_ranking` through unchanged (with the `get` defaults
`''`, `''`, `[]`, `False` for missing keys); `category` is likewise copied
through from the input with default `''` — it is not initialised to null —
and the output carries no `structure_type` key at all. -/
theorem refine_field_copies_metadata (f : RawField) :
    (refine_field f).name = f.name.get (some "") ∧
    (refine_field f).database_id = f.database_id.get (some "") ∧
    (refine_field f).subfields = f.subfields ∧
    (refine_field f).has_ranking = f.has_ranking ∧
    (refine_field f).category = f.category.get (some "") ∧
    (∀ c, f.category = JStr.str c → (refine_field f).category = some c) := by
  refine ⟨rfl, rfl, rfl, rfl, rfl, ?_⟩
  intro c hc
  show f.category.get (some "") = some c
  rw [hc]
  rfl

/-- Witness for the amended claim C3 at a concrete raw field. -/
theorem refine_field_copies_metadata_witness :
    (refine_field { name := JStr.str "GDP",
                    database_id := JStr.str "208",
                    category := JStr.str "Economy",
                    data := JStr.str "x",
                    subfields := ["a"],
                    has_ranking := true }).category = some "Economy" :=
  (refine_field_copies_metadata _).2.2.2.2.2 "Economy" rfl

/-! ### Claim C5 -/

/-- Claim C5 (counterexample): the claim states a field whose refinement
fails degrades to an empty/default field record in the output, without
raising out of the per-field operation, and that sibling fields are still
normalized.  Neither part holds: on a record whose fields list is a
malformed (non-dict) entry followed by a well-formed one, `refine_field`
raises on the malformed entry and the `except` handler's own log line
(`field.get('name', 'unknown')` on the same non-dict) raises again, so the
exception escapes the loop and the record's refinement produces no field
list at all — there is no default record, and the sibling field is never
refined (in particular the result is not the sibling-only list a mere skip
would give). -/
theorem refine_country_fields_aborts_on_failure :
    refine_country_fields [RawEntry.malformed, RawEntry.obj {}] =
      Except.error "AttributeError" ∧
    (Except.error "AttributeError" : Except String (List RefinedField)) ≠
      Except.ok [refine_field {}] :=
  ⟨rfl, fun h => Except.noConfusion h⟩

/-- Claim C5 (amended): a field whose refinement fails internally (a
non-dict entry — the only case in which `refine_field` raises) neither
degrades to a default record nor is merely skipped: the exception escapes
the per-field operation, because the `except` handler's log line re-raises
on the same field before its `continue`, so the record's field loop aborts
and the remaining sibling fields are not normalized (the per-country
caller then records the whole record as failed).  Well-formed dict fields
never fail: a record consisting only of them refines every field, in
order. -/
theorem refine_country_fields_abort_semantics :
    ∀ (es₁ es₂ : List RawEntry) (fs : List RawField),
      refine_country_fields (es₁ ++ RawEntry.malformed :: es₂) =
        Except.error "AttributeError" ∧
      refine_country_fields (fs.map RawEntry.obj) =
        Except.ok (fs.map refine_field) := by
  intro es₁ es₂ fs
  constructor
  · induction es₁ with
    | nil => rfl
    | cons e es ih =>
      cases e with
      | obj g =>
        simp only [List.cons_append, refine_country_fields, refineEntry,
          List.append_eq]
        rw [ih]
      | malformed =>
        simp only [List.cons_append, refine_country_fields, refineEntry,
          List.append_eq]
  · induction fs with
    | nil => rfl
    | cons f fs ih =>
      simp only [List.map_cons, refine_country_fields, refineEntry]
      rw [ih]

/-! ### Claim C7 -/

/-- Claim C7 (counterexample): the claim states that for a string without
break markers `split_values` returns the one-element list holding the
stripped string (empty input aside).  A whitespace-only string has no
break markers and is non-empty, yet stripping makes the single fragment
empty and the code drops empty fragments, returning `[]` instead of
`[""]`. -/
theorem split_values_whitespace_only :
    countBrTags " ".data = 0 ∧
    split_values (some " ") = [] ∧
    ([] : List String) ≠ [""] := by
  decide

/-- Claim C7 (amended): for every string with zero break-marker matches,
`is_multi_valued` is false and `split_values` returns the one-element list
holding the stripped string — except that when the string is empty, or
strips to the empty string, the result is the empty list; `None` likewise
gives false and `[]`. -/
theorem split_values_no_markers (s : String) (h : countBrTags s.data = 0) :
    is_multi_valued (some s) = false ∧
    split_values (some s) =
      (if (pyStrip s.data).isEmpty then [] else [String.mk (pyStrip s.data)]) ∧
    is_multi_valued none = false ∧
    split_values none = [] := by
  refine ⟨?_, ?_, rfl, rfl⟩
  · show (if s.isEmpty then false else decide (countBrTags s.data ≥ 1)) = false
    rw [h]
    simp
  · show (if s.isEmpty then [] else _) = _
    by_cases he : s.isEmpty
    · have he' : s = "" := (String.isEmpty_iff s).mp he
      subst he'
      decide
    · rw [if_neg he, splitBr_of_countBrTags_zero s.data h]
      simp only [List.map_cons, List.map_nil, List.filterMap_cons, List.filterMap_nil]
      by_cases hp : (pyStrip s.data).isEmpty
      · rw [if_pos hp]
        simp [hp]
      · rw [if_neg hp]
        simp [hp]

/-- Witness for the amended claim C7 on a concrete marker-free string. -/
theorem split_values_no_markers_witness :
    is_multi_valued (some "  Single value ") = false ∧
    split_values (some "  Single value ") = ["Single value"] :=
  ⟨(split_values_no_markers "  Single value " (by decide)).1,
   by
    have h := (split_values_no_markers "  Single value " (by decide)).2.1
    rw [h]
    decide⟩

/-! ### Search lemmas for the year patterns -/

theorem scanFirst_prop {α : Type} {m : List Char → Option (α × List Char)}
    {P : α → Prop} (hP : ∀ l a r, m l = some (a, r) → P a) :
    ∀ (fuel : Nat) (l : List Char) (a : α), scanFirst m fuel l = some a → P a := by
  intro fuel
  induction fuel with
  | zero => intro l a h; exact absurd h (by simp [scanFirst])
  | succ f ih =>
    intro l a h
    match l with
    | [] =>
      rw [scanFirst_nil] at h
      exact absurd h (by simp)
    | c :: cs =>
      cases hm : m (c :: cs) with
      | some ar =>
        obtain ⟨a', r⟩ := ar
        rw [show scanFirst m (f + 1) (c :: cs) =
            (match m (c :: cs) with
             | some (a, _) => some a
             | none => scanFirst m f cs) from rfl, hm] at h
        have ha : a' = a := by simpa using h
        subst ha
        exact hP _ _ _ hm
      | none =>
        rw [show scanFirst m (f + 1) (c :: cs) =
            (match m (c :: cs) with
             | some (a, _) => some a
             | none => scanFirst m f cs) from rfl, hm] at h
        exact ih cs a h

theorem scanFirst_none_of {α : Type} {m : List Char → Option (α × List Char)} :
    ∀ (fuel : Nat) (l : List Char),
      (∀ x xs, (x :: xs) <:+ l → m (x :: xs) = none) →
      scanFirst m fuel l = none := by
  intro fuel
  induction fuel with
  | zero => intro l _; rfl
  | succ f ih =>
    intro l h
    match l with
    | [] => exact scanFirst_nil m (f + 1)
    | c :: cs =>
      have hm : m (c :: cs) = none := h c cs (List.suffix_refl _)
      show (match m (c :: cs) with
            | some (a, _) => some a
            | none => scanFirst m f cs) = none
      rw [hm]
      exact ih cs (fun x xs hs => h x xs (hs.trans (List.suffix_cons c cs)))

theorem searchEst_digits {l : List Char} {y : String}
    (h : searchEst l = some y) :
    y.data.length = 4 ∧ y.data.all Char.isDigit = true :=
  @scanFirst_prop String matchEstAt
    (fun z => z.data.length = 4 ∧ z.data.all Char.isDigit = true)
    (fun _ _ _ hm => ⟨(matchEstAt_some hm).2.1, (matchEstAt_some hm).2.2⟩)
    l.length l y h

theorem searchBare_digits {l : List Char} {y : String}
    (h : searchBare l = some y) :
    y.data.length = 4 ∧ y.data.all Char.isDigit = true :=
  @scanFirst_prop String matchBareAt
    (fun z => z.data.length = 4 ∧ z.data.all Char.isDigit = true)
    (fun _ _ _ hm => ⟨(matchBareAt_some hm).2.1, (matchBareAt_some hm).2.2⟩)
    l.length l y h

/-- A successful `extract_year` yields the captured group of one of the two
year patterns: a 4-character all-digit string. -/
theorem extract_year_digits {s y : String}
    (h : extract_year (some s) = some y) :
    y.data.length = 4 ∧ y.data.all Char.isDigit = true := by
  simp only [extract_year] at h
  split at h
  · exact absurd h (by simp)
  · cases hse : searchEst s.data with
    | some z =>
      rw [hse] at h
      have hz : z = y := by simpa using h
      subst hz
      exact searchEst_digits hse
    | none =>
      rw [hse] at h
      exact searchBare_digits h

theorem matchEstAt_head {x : Char} {xs : List Char} (hx : x ≠ '(') :
    matchEstAt (x :: xs) = none := by
  unfold matchEstAt
  simp [expectChars, hx]

theorem matchBareAt_head {x : Char} {xs : List Char} (hx : x ≠ '(') :
    matchBareAt (x :: xs) = none := by
  unfold matchBareAt
  simp [expectChars, hx]

/-- On a string of digit characters neither year pattern can match (both
require an opening parenthesis), so `extract_year` finds nothing. -/
theorem extract_year_of_digit_string {y : String} (h4 : y.data.length = 4)
    (hd : y.data.all Char.isDigit = true) : extract_year (some y) = none := by
  have hne : ¬ y.isEmpty = true := by
    intro hy
    have : y = "" := (String.isEmpty_iff y).mp hy
    subst this
    simp at h4
  have hhead : ∀ x xs, (x :: xs) <:+ y.data → x ≠ '(' := by
    intro x xs hs heq
    have hx : x ∈ y.data := hs.subset (List.mem_cons_self x xs)
    have := (List.all_eq_true.mp hd) x hx
    rw [heq] at this
    exact absurd this (by decide)
  have hE : searchEst y.data = none :=
    scanFirst_none_of y.data.length y.data
      (fun x xs hs => matchEstAt_head (hhead x xs hs))
  have hB : searchBare y.data = none :=
    scanFirst_none_of y.data.length y.data
      (fun x xs hs => matchBareAt_head (hhead x xs hs))
  simp only [extract_year]
  rw [if_neg hne, hE]
  exact hB

/-! ### Claim C2 -/

set_option maxRecDepth 8000 in
/-- Claim C2 (confirmed): `extract_year_smart` suppresses extraction when
the total number of matches of the two year patterns exceeds 1 (count
gate), and when exactly one match was found but the string is longer than
120 characters (length gate); when both gates pass and `extract_year`
finds a match, the smart variant returns that matched year, a 4-digit
string.  The two concluding conjuncts check the claim's concrete examples:
`"0.6% of GDP (2024 est.)"` yields `"2024"`, and a 123-character string
with two year matches yields `None`. -/
theorem extract_year_smart_gate_behaviour (s : String) :
    (totalYearsFound s > 1 → extract_year_smart (some s) = none) ∧
    (totalYearsFound s = 1 → s.length > 120 → extract_year_smart (some s) = none) ∧
    (totalYearsFound s ≤ 1 → ¬(totalYearsFound s = 1 ∧ s.length > 120) →
      ∀ y, extract_year (some s) = some y →
        extract_year_smart (some s) = some y ∧
        y.data.length = 4 ∧ y.data.all Char.isDigit = true) ∧
    extract_year_smart (some "0.6% of GDP (2024 est.)") = some "2024" ∧
    extract_year_smart (some "previous: Independence Day, 19 August (1919); under the Taliban Government, 15 August (2022) is declared a national holiday") = none ∧
    ("previous: Independence Day, 19 August (1919); under the Taliban Government, 15 August (2022) is declared a national holiday").length > 120 ∧
    totalYearsFound "previous: Independence Day, 19 August (1919); under the Taliban Government, 15 August (2022) is declared a national holiday" = 2 := by
  refine ⟨?_, ?_, ?_, by decide, by decide, by decide, by decide⟩
  · intro hgt
    have hs : should_extract_year (some s) 120 1 = false := by
      simp only [should_extract_year]
      by_cases hse : s.isEmpty = true
      · rw [if_pos hse]
      · rw [if_neg hse, if_pos hgt]
    unfold extract_year_smart
    rw [hs]
    simp
  · intro h1 h2
    have hs : should_extract_year (some s) 120 1 = false := by
      simp only [should_extract_year]
      by_cases hse : s.isEmpty = true
      · rw [if_pos hse]
      · rw [if_neg hse, if_neg (by omega), if_pos ⟨h1, h2⟩]
    unfold extract_year_smart
    rw [hs]
    simp
  · intro hle hnot y hy
    have hse : ¬ s.isEmpty = true := by
      intro hemp
      simp only [extract_year] at hy
      rw [if_pos hemp] at hy
      exact absurd hy (by simp)
    have hs : should_extract_year (some s) 120 1 = true := by
      simp only [should_extract_year]
      rw [if_neg hse, if_neg (by omega), if_neg hnot]
    refine ⟨?_, extract_year_digits hy⟩
    unfold extract_year_smart
    rw [hs]
    simpa using hy

/-- Witness for claim C2: both gates pass on the short dated data point and
the theorem yields its year. -/
theorem extract_year_smart_gate_behaviour_witness :
    extract_year_smart (some "0.6% of GDP (2024 est.)") = some "2024" ∧
    "2024".data.length = 4 :=
  ⟨((extract_year_smart_gate_behaviour "0.6% of GDP (2024 est.)").2.2.1
      (by decide) (by decide) "2024" (by decide)).1,
   by decide⟩

/-! ### Claim C8 -/

/-- Claim C8 (counterexample): the claim asserts `extract_year_smart` is
idempotent on its own output.  It is not: on `"(2024)"` it returns
`"2024"`, but on `"2024"` it returns `None` — the bare 4-digit output
contains no parenthesised year, so it has zero matches (not one, as the
claim reasons), and `extract_year` finds nothing. -/
theorem extract_year_smart_not_idempotent :
    extract_year_smart (some "(2024)") = some "2024" ∧
    extract_year_smart (some "2024") ≠ some "2024" ∧
    extract_year_smart (some "2024") = none := by
  decide

/-- Claim C8 (amended): applying `extract_year_smart` to its own non-null
output always returns `None` (not the same year): the output is a bare
4-digit string, which matches neither parenthesised year pattern, so the
second application extracts nothing. -/
theorem extract_year_smart_annihilates (s y : String)
    (h : extract_year_smart (some s) = some y) :
    extract_year_smart (some y) = none := by
  have hex : extract_year (some s) = some y := by
    unfold extract_year_smart at h
    split at h
    · exact h
    · exact absurd h (by simp)
  have hd := extract_year_digits hex
  have hnone : extract_year (some y) = none :=
    extract_year_of_digit_string hd.1 hd.2
  unfold extract_year_smart
  split
  · exact hnone
  · rfl

/-- Witness for the amended claim C8 at a concrete input. -/
theorem extract_year_smart_annihilates_witness :
    extract_year_smart (some "(2024)") = some "2024" ∧
    extract_year_smart (some "2024") = none :=
  ⟨by decide, extract_year_smart_annihilates "(2024)" "2024" (by decide)⟩

/-! ### Claim C6 -/

/-- Normal form of `enrich_field`: the input record with only its
`category` replaced. -/
theorem enrich_field_eq (mapping : List (String × String)) (f : RawField) :
    enrich_field mapping f =
      { f with category :=
          match (if truthyStr (f.database_id.get none)
                 then (f.database_id.get none).bind (dictLookup mapping)
                 else none) with
          | some cat => JStr.str cat
          | none => JStr.null } := by
  show (match (if truthyStr (f.database_id.get none)
               then (f.database_id.get none).bind (dictLookup mapping)
               else none) with
        | some cat => { f with category := JStr.str cat }
        | none => { f with category := JStr.null }) = _
  cases (if truthyStr (f.database_id.get none)
         then (f.database_id.get none).bind (dictLookup mapping)
         else none) <;> rfl

/-- Claim C6 (counterexample): the claim states enrichment sets `category`
to the mapped name whenever `database_id` is not null/absent and is present
in the mapping.  A field whose `database_id` is the empty string is
neither null nor absent, and the empty string can be a mapping key, yet the
code's truthiness test (`if database_id and ...`) rejects it and assigns
null instead of the mapped name. -/
theorem enrich_field_empty_id_counterexample :
    dictLookup [("", "Geography")] "" = some "Geography" ∧
    (enrich_field [("", "Geography")] { database_id := JStr.str "" }).category
      = JStr.null ∧
    JStr.null ≠ JStr.str "Geography" := by
  decide

/-- Claim C6 (amended): enrichment returns a new record equal to the input
except for `category` (so the input is not mutated and no other attribute
changes); `category` is set to the name the mapping associates with
`database_id` when `database_id` is a non-empty string present in the
mapping, and to null when `database_id` is null, absent, empty, or not
present in the mapping; no case raises, and with an empty mapping every
field gets a null category. -/
theorem enrich_field_category_rule (mapping : List (String × String))
    (f : RawField) :
    ((enrich_field mapping f).name = f.name ∧
     (enrich_field mapping f).database_id = f.database_id ∧
     (enrich_field mapping f).data = f.data ∧
     (enrich_field mapping f).subfields = f.subfields ∧
     (enrich_field mapping f).has_ranking = f.has_ranking) ∧
    (∀ id cat, f.database_id.get none = some id → id.isEmpty = false →
      dictLookup mapping id = some cat →
      (enrich_field mapping f).category = JStr.str cat) ∧
    (∀ id, f.database_id.get none = some id → dictLookup mapping id = none →
      (enrich_field mapping f).category = JStr.null) ∧
    (f.database_id.get none = none → (enrich_field mapping f).category = JStr.null) ∧
    (enrich_field [] f).category = JStr.null := by
  refine ⟨⟨?_, ?_, ?_, ?_, ?_⟩, ?_, ?_, ?_, ?_⟩
  · rw [enrich_field_eq]
  · rw [enrich_field_eq]
  · rw [enrich_field_eq]
  · rw [enrich_field_eq]
  · rw [enrich_field_eq]
  · intro id cat hid hne hlk
    rw [enrich_field_eq, hid]
    simp [truthyStr, hne, hlk]
  · intro id hid hlk
    by_cases ht : id.isEmpty <;>
      simp [enrich_field_eq, hid, hlk, truthyStr, ht]
  · intro hid
    simp [enrich_field_eq, hid, truthyStr]
  · cases hdb : f.database_id.get none with
    | none => simp [enrich_field_eq, hdb, truthyStr]
    | some id =>
      by_cases ht : id.isEmpty <;>
        simp [enrich_field_eq, hdb, truthyStr, ht, dictLookup]

/-- Witness for the amended claim C6: a mapped id receives its category. -/
theorem enrich_field_category_rule_witness :
    (enrich_field [("208", "Economy")] { database_id := JStr.str "208" }).category
      = JStr.str "Economy" :=
  (enrich_field_category_rule [("208", "Economy")]
      { database_id := JStr.str "208" }).2.1 "208" "Economy"
    (by decide) (by decide) (by decide)

/-! ### Claim C10 -/

/-- Claim C10 (counterexample): the claim states each output entry keeps
every key-value pair of the input unchanged, with at most one *additional*
`year` key.  When an input entry already carries a `year` key and a year is
extracted from its `value`, the code overwrites the existing pair: here the
input pair `year = "1999"` becomes `year = "2024"` in the output. -/
theorem extract_years_overwrites_existing_year :
    extract_years_from_values
        [{ value := JStr.str "(2024)", year := some "1999",
           rest := [("order", "0")] }] =
      [{ value := JStr.str "(2024)", year := some "2024",
         rest := [("order", "0")] }] ∧
    (some "2024" : Option String) ≠ some "1999" := by
  decide

/-- Claim C10 (amended): both per-entry list variants return a list of the
same length and order in which each output entry agrees with the
corresponding input entry on every key except `year`; the `year` key is set
to the extracted year when smart extraction yields a (truthy) year — added
if absent, overwriting any existing value — and is left exactly as in the
input otherwise.  The input entries are never mutated (the transformation
builds new records). -/
theorem extract_years_frame (vs : List ValueObj) (ks : List KVObj) :
    (extract_years_from_values vs).map ValueObj.value = vs.map ValueObj.value ∧
    (extract_years_from_values vs).map ValueObj.rest = vs.map ValueObj.rest ∧
    (extract_years_from_values vs).map ValueObj.year =
      vs.map (fun v =>
        match extract_year_smart (v.value.get (some "")) with
        | some y => if y.isEmpty then v.year else some y
        | none => v.year) ∧
    (extract_years_from_key_value_pairs ks).map KVObj.key = ks.map KVObj.key ∧
    (extract_years_from_key_value_pairs ks).map KVObj.value = ks.map KVObj.value ∧
    (extract_years_from_key_value_pairs ks).map KVObj.rest = ks.map KVObj.rest ∧
    (extract_years_from_key_value_pairs ks).map KVObj.year =
      ks.map (fun v =>
        match extract_year_smart (v.value.get (some "")) with
        | some y => if y.isEmpty then v.year else some y
        | none => v.year) := by
  unfold extract_years_from_values extract_years_from_key_value_pairs
  refine ⟨?_, ?_, ?_, ?_, ?_, ?_, ?_⟩ <;>
    rw [List.map_map] <;>
    apply List.map_congr_left <;>
    intro v _
  · show (if truthyStr (extract_year_smart (v.value.get (some ""))) then _ else v).value = v.value
    split <;> rfl
  · show (if truthyStr (extract_year_smart (v.value.get (some ""))) then _ else v).rest = v.rest
    split <;> rfl
  · show (if truthyStr (extract_year_smart (v.value.get (some ""))) then _ else v).year = _
    cases hx : extract_year_smart (v.value.get (some "")) with
    | some y =>
      by_cases hy : y.isEmpty <;> simp [truthyStr, hx, hy]
    | none => simp [truthyStr, hx]
  · show (if truthyStr (extract_year_smart (v.value.get (some ""))) then _ else v).key = v.key
    split <;> rfl
  · show (if truthyStr (extract_year_smart (v.value.get (some ""))) then _ else v).value = v.value
    split <;> rfl
  · show (if truthyStr (extract_year_smart (v.value.get (some ""))) then _ else v).rest = v.rest
    split <;> rfl
  · show (if truthyStr (extract_year_smart (v.value.get (some ""))) then _ else v).year = _
    cases hx : extract_year_smart (v.value.get (some "")) with
    | some y =>
      by_cases hy : y.isEmpty <;> simp [truthyStr, hx, hy]
    | none => simp [truthyStr, hx]

/-! ### Claim C9 -/

/-- Claim C9 (confirmed): flattening a normalized `simple`-structure field
produces exactly one row per entry of its values list; every row carries
the `"-"` sentinel key and the entry's value and order; and re-aggregating
the rows (reading back each row's value and order) reproduces the original
values list in the same order. -/
theorem flatten_simple_round_trip (cn csl : String) (field : ExportField)
    (vs : List NormValue)
    (hst : field.structure_type = "simple")
    (hvals : field.values = vs.map NormValue.toExportObj) :
    (flatten_field cn csl field).length = vs.length ∧
    (flatten_field cn csl field).all (fun r => r.key == some "-") = true ∧
    (flatten_field cn csl field).map Row.value = vs.map (fun v => some v.value) ∧
    (flatten_field cn csl field).map Row.order = vs.map NormValue.order ∧
    (flatten_field cn csl field).map
      (fun r => ({ value := r.value.getD "", order := r.order } : NormValue)) = vs := by
  have hred : flatten_field cn csl field =
      (vs.map NormValue.toExportObj).map (fun value_obj =>
        { country := cn, country_slug := csl,
          field_name := field.name, database_id := field.database_id,
          category := field.category.get (some "Unknown"),
          structure_type := field.structure_type,
          key := some "-",
          value := value_obj.value.get (some ""),
          order := value_obj.order.getD 0,
          has_ranking := field.has_ranking }) := by
    unfold flatten_field
    rw [if_pos hst, hvals]
  rw [hred, List.map_map]
  refine ⟨by simp, ?_, ?_, ?_, ?_⟩
  · simp only [List.all_eq_true]
    intro r hrm
    obtain ⟨v, hv, rfl⟩ := List.mem_map.mp hrm
    rfl
  · rw [List.map_map]
    exact List.map_congr_left (fun v _ => rfl)
  · rw [List.map_map]
    exact List.map_congr_left (fun v _ => rfl)
  · rw [List.map_map]
    exact (List.map_congr_left (fun v _ => rfl)).trans (List.map_id vs)

/-- Witness for claim C9 at a concrete two-valued simple field. -/
theorem flatten_simple_round_trip_witness :
    (flatten_field "Albania" "albania"
        { name := "GDP", database_id := some "208",
          category := JStr.str "Economy", structure_type := "simple",
          has_ranking := false,
          values := [NormValue.toExportObj ⟨"a", 0⟩,
                     NormValue.toExportObj ⟨"b", 1⟩] }).map
      (fun r => ({ value := r.value.getD "", order := r.order } : NormValue)) =
      [⟨"a", 0⟩, ⟨"b", 1⟩] :=
  (flatten_simple_round_trip "Albania" "albania" _ [⟨"a", 0⟩, ⟨"b", 1⟩]
    rfl rfl).2.2.2.2

/-! ### Claim C4 -/

/-- When no record holds the same field name twice, the per-occurrence
count `len(countries_with_field)` coincides with the number of records
containing the field at all. -/
theorem countries_with_field_len_eq_records_containing (n : String) :
    ∀ (records : List (List RawField)),
      (∀ fields ∈ records,
        (fields.filter (fun f => field_name_of f == some n)).length ≤ 1) →
      countries_with_field_len n records = records_containing n records := by
  intro records
  induction records with
  | nil => intro _; rfl
  | cons fields rest ih =>
    intro h
    have hf := h fields (List.mem_cons_self _ _)
    have hrest := ih (fun fs hfs => h fs (List.mem_cons_of_mem _ hfs))
    unfold countries_with_field_len records_containing
    simp only [List.map_cons, List.sum_cons, List.filter_cons]
    rcases Nat.le_one_iff_eq_zero_or_eq_one.mp hf with h0 | h1
    · have hfil : fields.filter (fun f => field_name_of f == some n) = [] :=
        List.length_eq_zero.mp h0
      have hany : fields.any (fun f => field_name_of f == some n) = false := by
        cases hc : fields.any (fun f => field_name_of f == some n) with
        | false => rfl
        | true =>
          obtain ⟨x, hx, hpx⟩ := List.any_eq_true.mp hc
          have : x ∈ fields.filter (fun f => field_name_of f == some n) :=
            List.mem_filter.mpr ⟨hx, hpx⟩
          rw [hfil] at this
          exact absurd this (List.not_mem_nil x)
      rw [h0, hany]
      simpa using hrest
    · have hany : fields.any (fun f => field_name_of f == some n) = true := by
        cases hfl : fields.filter (fun f => field_name_of f == some n) with
        | nil => rw [hfl] at h1; simp at h1
        | cons a t =>
          have ha : a ∈ fields.filter (fun f => field_name_of f == some n) := by
            rw [hfl]; exact List.mem_cons_self a t
          obtain ⟨ham, hpa⟩ := List.mem_filter.mp ha
          exact List.any_eq_true.mpr ⟨a, ham, hpa⟩
      rw [h1, hany]
      simp only [if_pos, List.length_cons]
      have hrest2 :
          (rest.map (fun fields =>
            (fields.filter (fun f => field_name_of f == some n)).length)).sum =
          (rest.filter (fun fields =>
            fields.any (fun f => field_name_of f == some n))).length := hrest
      omega

/-- Bounds on the round-half-to-even integer. -/
theorem round_half_even_bounds (x : ℚ) (h0 : 0 ≤ x) (h1 : x ≤ 1000) :
    0 ≤ round_half_even x ∧ round_half_even x ≤ 1000 := by
  have hf0 : (0 : ℤ) ≤ ⌊x⌋ := Int.floor_nonneg.mpr h0
  have hfle : (⌊x⌋ : ℚ) ≤ x := Int.floor_le x
  have hfle1000 : ⌊x⌋ ≤ 1000 := by
    have hq : (⌊x⌋ : ℚ) ≤ 1000 := le_trans hfle h1
    exact_mod_cast hq
  have hplus : x - ⌊x⌋ ≥ 1 / 2 → ⌊x⌋ + 1 ≤ 1000 := by
    intro hge
    have hq : (⌊x⌋ : ℚ) < 1000 := by linarith
    have hz : ⌊x⌋ < 1000 := by exact_mod_cast hq
    omega
  unfold round_half_even
  split
  · exact ⟨hf0, hfle1000⟩
  · next hA =>
    split
    · next hB => exact ⟨by omega, hplus (by linarith [not_lt.mp hA])⟩
    · split
      · exact ⟨hf0, hfle1000⟩
      · exact ⟨by omega, hplus (by linarith [not_lt.mp hA])⟩

/-- Bounds on Python one-decimal rounding of a value in `[0, 100]`. -/
theorem pyRound1_bounds (q : ℚ) (h0 : 0 ≤ q) (h1 : q ≤ 100) :
    0 ≤ pyRound1 q ∧ pyRound1 q ≤ 100 := by
  have h := round_half_even_bounds (q * 10) (by positivity) (by linarith)
  unfold pyRound1
  constructor
  · have hz : (0 : ℚ) ≤ (round_half_even (q * 10) : ℚ) := by exact_mod_cast h.1
    positivity
  · rw [div_le_iff₀ (by norm_num : (0 : ℚ) < 10)]
    have hz : (round_half_even (q * 10) : ℚ) ≤ 1000 := by exact_mod_cast h.2
    linarith

/-- Claim C4 (counterexample): the claim states the coverage percentage
equals the fraction of records containing the field, and always lies in
`[0, 100]`, even when one record repeats a field name.  The registry in
fact appends the record's slug once per occurrence, so a single record
holding the field name `"GDP"` twice yields a coverage percentage of 200.0
even though only 1 of 1 records contains the field. -/
theorem coverage_percentage_duplicate_exceeds_100 :
    coverage_percentage "GDP"
        [[{ name := JStr.str "GDP" }, { name := JStr.str "GDP" }]] 1 = 200 ∧
    ¬ (coverage_percentage "GDP"
        [[{ name := JStr.str "GDP" }, { name := JStr.str "GDP" }]] 1 ≤ 100) ∧
    records_containing "GDP"
        [[{ name := JStr.str "GDP" }, { name := JStr.str "GDP" }]] = 1 := by
  have hcwf : countries_with_field_len "GDP"
      [[{ name := JStr.str "GDP" }, { name := JStr.str "GDP" }]] = 2 := by decide
  have h200 : coverage_percentage "GDP"
      [[{ name := JStr.str "GDP" }, { name := JStr.str "GDP" }]] 1 = 200 := by
    unfold coverage_percentage
    rw [hcwf]
    norm_num [pyRound1, round_half_even]
  exact ⟨h200, by rw [h200]; norm_num, by decide⟩

/-- Claim C4 (amended): over records none of which repeats a field name,
and with the total record count taken (as `discover_fields` does) to be the
number of records, the coverage percentage of a field equals the number of
records containing that field name at all, divided by the total record
count, times 100, rounded to one decimal — and it lies in `[0, 100]`.
(Without the no-repeat hypothesis the registry counts occurrences, not
records, and the percentage can exceed 100, as the counterexample shows.) -/
theorem coverage_percentage_of_records (n : String)
    (records : List (List RawField))
    (hpos : 0 < records.length)
    (hnodup : ∀ fields ∈ records,
      (fields.filter (fun f => field_name_of f == some n)).length ≤ 1) :
    coverage_percentage n records records.length =
      pyRound1 (((records_containing n records : ℚ) / records.length) * 100) ∧
    0 ≤ coverage_percentage n records records.length ∧
    coverage_percentage n records records.length ≤ 100 := by
  have heq := countries_with_field_len_eq_records_containing n records hnodup
  have hle : records_containing n records ≤ records.length :=
    List.length_filter_le _ _
  have hmain : coverage_percentage n records records.length =
      pyRound1 (((records_containing n records : ℚ) / records.length) * 100) := by
    unfold coverage_percentage
    rw [if_pos hpos, heq]
  refine ⟨hmain, ?_⟩
  rw [hmain]
  have h2 : (0 : ℚ) < records.length := by exact_mod_cast hpos
  have h1 : (records_containing n records : ℚ) ≤ records.length := by
    exact_mod_cast hle
  have hq0 : 0 ≤ ((records_containing n records : ℚ) / records.length) * 100 := by
    positivity
  have hq100 : ((records_containing n records : ℚ) / records.length) * 100 ≤ 100 := by
    rw [div_mul_eq_mul_div, div_le_iff₀ h2]
    nlinarith
  exact pyRound1_bounds _ hq0 hq100

/-- Witness for the amended claim C4, matching the specification's
scenario: a field present in 2 of 3 records has coverage 66.7. -/
theorem coverage_percentage_of_records_witness :
    coverage_percentage "GDP"
        [[{ name := JStr.str "GDP" }], [{ name := JStr.str "GDP" }], []] 3 =
      pyRound1 (((records_containing "GDP"
          [[{ name := JStr.str "GDP" }], [{ name := JStr.str "GDP" }], []] : ℚ) / 3)
        * 100) ∧
    coverage_percentage "GDP"
        [[{ name := JStr.str "GDP" }], [{ name := JStr.str "GDP" }], []] 3 ≤ 100 ∧
    coverage_percentage "GDP"
        [[{ name := JStr.str "GDP" }], [{ name := JStr.str "GDP" }], []] 3 = 667 / 10 :=
  ⟨(coverage_percentage_of_records "GDP"
      [[{ name := JStr.str "GDP" }], [{ name := JStr.str "GDP" }], []]
      (by decide) (by decide)).1,
   (coverage_percentage_of_records "GDP"
      [[{ name := JStr.str "GDP" }], [{ name := JStr.str "GDP" }], []]
      (by decide) (by decide)).2.2,
   by
    have hcwf : countries_with_field_len "GDP"
        [[{ name := JStr.str "GDP" }], [{ name := JStr.str "GDP" }], []] = 2 := by
      decide
    unfold coverage_percentage
    rw [hcwf]
    norm_num [pyRound1, round_half_even]⟩
